import Mathlib

/-!
Verification of the MCP wallet server's tool-invocation broker and
pending-confirmation workflow (the `McpServer` class of the source's server
module).  The definitions below are a shallow embedding of that class: the
`pendingConfirmations` map, `confirmTransaction`, `rejectTransaction`, the
`CallToolRequestSchema` handler (`callTool`), `registerTools`, and the
JSON-as-error-message signalling channel used by the sendTransaction tool.

The wallet (`EvmMcpWallet`) is an external capability: it is modelled as an
oracle (`WalletBehavior`) mapping operations to a typed result or a thrown
error message.  Each server operation additionally reports the list of wallet
operations it actually invoked, so that claims about the capability being
called (or not) can be stated.

JavaScript's `JSON.parse` / `JSON.stringify` are modelled by an executable
JSON grammar (`Json.parse`, `stringifyStrObj`): the dispatcher's behaviour
depends on whether a thrown message is valid JSON text, so the grammar is
implemented for real (strings with escapes, numbers, literals, arrays,
objects, whitespace; trailing text rejected).
-/

/-- JSON values, as produced by `JSON.parse`.  Numbers keep their raw token
text: none of the broker's behaviour depends on numeric value. -/
inductive Json where
  | null
  | bool (b : Bool)
  | num (raw : String)
  | str (s : String)
  | arr (items : List Json)
  | obj (fields : List (String × Json))

/-- Hex digit character for code `n < 16`, lowercase. -/
def hexDigitChar (n : Nat) : Char :=
  if n < 10 then Char.ofNat (48 + n) else Char.ofNat (87 + n)

/-- `JSON.stringify` escaping of one character inside a string literal. -/
def escChar (c : Char) : List Char :=
  if c = '"' then ['\\', '"']
  else if c = '\\' then ['\\', '\\']
  else if c.toNat < 32 then
    ['\\', 'u', '0', '0', hexDigitChar (c.toNat / 16), hexDigitChar (c.toNat % 16)]
  else [c]

/-- Escaped body of a string literal. -/
def escBody : List Char → List Char
  | [] => []
  | c :: cs => escChar c ++ escBody cs

/-- A JSON string literal (quotes included) as characters. -/
def strLitChars (s : String) : List Char :=
  '"' :: (escBody s.data ++ ['"'])

/-- One `"key":"value"` member as characters. -/
def fieldChars (kv : String × String) : List Char :=
  strLitChars kv.1 ++ ':' :: strLitChars kv.2

/-- Comma-joined members of a flat string object. -/
def fieldsChars : List (String × String) → List Char
  | [] => []
  | [kv] => fieldChars kv
  | kv :: rest => fieldChars kv ++ ',' :: fieldsChars rest

/-- `JSON.stringify` of a flat object whose values are strings — the only
shapes the source ever stringifies (`\x7bcode, message\x7d` and `\x7bzh, en\x7d`). -/
def stringifyStrObj (fields : List (String × String)) : String :=
  String.mk ('\x7b' :: (fieldsChars fields ++ ['\x7d']))

/-- JSON insignificant whitespace. -/
def isJsonWs (c : Char) : Bool :=
  c = ' ' || c = '\n' || c = '\t' || c = '\r'

/-- Drop leading JSON whitespace. -/
def skipWs : List Char → List Char
  | [] => []
  | c :: cs => if isJsonWs c then skipWs cs else c :: cs

/-- Value of a hex digit, if any. -/
def hexVal (c : Char) : Option Nat :=
  if 48 ≤ c.toNat ∧ c.toNat ≤ 57 then some (c.toNat - 48)
  else if 97 ≤ c.toNat ∧ c.toNat ≤ 102 then some (c.toNat - 87)
  else if 65 ≤ c.toNat ∧ c.toNat ≤ 70 then some (c.toNat - 55)
  else none

/-- Prepend a decoded character to a string-body parse result. -/
def consM (c : Char) (r : Option (List Char × List Char)) :
    Option (List Char × List Char) :=
  r.map (fun p => (c :: p.1, p.2))

/-- Decode a `\uXXXX` escape (after the `u`). -/
def escU : List Char → Option (Char × List Char)
  | h1 :: h2 :: h3 :: h4 :: cs2 =>
    match hexVal h1, hexVal h2, hexVal h3, hexVal h4 with
    | some a, some b, some c3, some d =>
      some (Char.ofNat (((a * 16 + b) * 16 + c3) * 16 + d), cs2)
    | _, _, _, _ => none
  | _ => none

/-- Decode one escape sequence (after the backslash): the decoded character
and the remaining input.  Unknown escapes are refused, as in `JSON.parse`. -/
def escDecode : List Char → Option (Char × List Char)
  | [] => none
  | e :: cs1 =>
    if e = '"' then some ('"', cs1)
    else if e = '\\' then some ('\\', cs1)
    else if e = '/' then some ('/', cs1)
    else if e = 'n' then some ('\n', cs1)
    else if e = 't' then some ('\t', cs1)
    else if e = 'r' then some ('\r', cs1)
    else if e = 'b' then some ('\x08', cs1)
    else if e = 'f' then some ('\x0c', cs1)
    else if e = 'u' then escU cs1
    else none

/-- Parse the body of a JSON string after the opening quote: returns the
decoded characters and the rest of the input after the closing quote.
Unescaped control characters are refused, as in `JSON.parse`.  The fuel
argument is a termination device only: every step consumes at least one
input character, so any fuel exceeding the input length is enough, and
callers pass `length + 1`. -/
def parseStringBody : Nat → List Char → Option (List Char × List Char)
  | 0, _ => none
  | Nat.succ f, cs =>
    match cs with
    | [] => none
    | c :: cs1 =>
      if c = '"' then some ([], cs1)
      else if c = '\\' then
        match escDecode cs1 with
        | some (d, cs2) => consM d (parseStringBody f cs2)
        | none => none
      else if c.toNat < 32 then none
      else consM c (parseStringBody f cs1)

/-- Split off a (possibly empty) run of leading decimal digits. -/
def spanDigits : List Char → List Char × List Char
  | [] => ([], [])
  | c :: cs =>
    if c.isDigit then
      let p := spanDigits cs
      (c :: p.1, p.2)
    else ([], c :: cs)

/-- Integer part of a JSON number: `0` or a nonzero-led digit run. -/
def parseIntPart : List Char → Option (List Char × List Char)
  | [] => none
  | c :: cs =>
    if c = '0' then some ([c], cs)
    else if c.isDigit then
      let p := spanDigits cs
      some (c :: p.1, p.2)
    else none

/-- Optional fractional part `.digits`. -/
def parseFracPart (cs : List Char) : Option (List Char × List Char) :=
  match cs with
  | '.' :: cs1 =>
    match spanDigits cs1 with
    | ([], _) => none
    | (d, r) => some ('.' :: d, r)
  | _ => some ([], cs)

/-- Optional exponent part `eE (+|-)? digits`. -/
def parseExpPart (cs : List Char) : Option (List Char × List Char) :=
  match cs with
  | [] => some ([], [])
  | c :: cs1 =>
    if c = 'e' ∨ c = 'E' then
      match cs1 with
      | [] => none
      | s :: cs2 =>
        if s = '+' ∨ s = '-' then
          match spanDigits cs2 with
          | ([], _) => none
          | (d, r) => some (c :: s :: d, r)
        else
          match spanDigits cs1 with
          | ([], _) => none
          | (d, r) => some (c :: d, r)
    else some ([], c :: cs1)

/-- A complete JSON number token (raw characters) and the rest. -/
def parseNumberTok (cs : List Char) : Option (List Char × List Char) :=
  let p := match cs with
    | '-' :: r => (['-'], r)
    | _ => (([] : List Char), cs)
  match parseIntPart p.2 with
  | none => none
  | some (ip, r1) =>
    match parseFracPart r1 with
    | none => none
    | some (fp, r2) =>
      match parseExpPart r2 with
      | none => none
      | some (ep, r3) => some (p.1 ++ ip ++ fp ++ ep, r3)

mutual

/-- Parse one JSON value (fuel-indexed for termination). -/
def parseValue : Nat → List Char → Option (Json × List Char)
  | 0, _ => none
  | Nat.succ f, cs =>
    match skipWs cs with
    | [] => none
    | '\x7b' :: r =>
      (match skipWs r with
       | '\x7d' :: r2 => some (Json.obj [], r2)
       | _ => (parseObjMembers f r).map (fun p => (Json.obj p.1, p.2)))
    | '[' :: r =>
      (match skipWs r with
       | ']' :: r2 => some (Json.arr [], r2)
       | _ => (parseArrMembers f r).map (fun p => (Json.arr p.1, p.2)))
    | '"' :: r =>
      (parseStringBody (r.length + 1) r).map (fun p => (Json.str (String.mk p.1), p.2))
    | 't' :: 'r' :: 'u' :: 'e' :: r => some (Json.bool true, r)
    | 'f' :: 'a' :: 'l' :: 's' :: 'e' :: r => some (Json.bool false, r)
    | 'n' :: 'u' :: 'l' :: 'l' :: r => some (Json.null, r)
    | other => (parseNumberTok other).map (fun p => (Json.num (String.mk p.1), p.2))

/-- Parse the members of a nonempty object (after the opening brace). -/
def parseObjMembers : Nat → List Char → Option (List (String × Json) × List Char)
  | 0, _ => none
  | Nat.succ f, cs =>
    match skipWs cs with
    | '"' :: r =>
      (match parseStringBody (r.length + 1) r with
       | none => none
       | some (key, r1) =>
         match skipWs r1 with
         | ':' :: r2 =>
           (match parseValue f r2 with
            | none => none
            | some (v, r3) =>
              match skipWs r3 with
              | ',' :: r4 => (parseObjMembers f r4).map
                  (fun p => ((String.mk key, v) :: p.1, p.2))
              | '\x7d' :: r4 => some ([(String.mk key, v)], r4)
              | _ => none)
         | _ => none)
    | _ => none

/-- Parse the items of a nonempty array (after the opening bracket). -/
def parseArrMembers : Nat → List Char → Option (List Json × List Char)
  | 0, _ => none
  | Nat.succ f, cs =>
    match parseValue f cs with
    | none => none
    | some (v, r1) =>
      match skipWs r1 with
      | ',' :: r2 => (parseArrMembers f r2).map (fun p => (v :: p.1, p.2))
      | ']' :: r2 => some ([v], r2)
      | _ => none

end

/-- `JSON.parse`: one complete value, with only whitespace around it. -/
def Json.parse (s : String) : Option Json :=
  match parseValue (s.data.length + 1) s.data with
  | some (j, rest) => if skipWs rest = [] then some j else none
  | none => none

/-! ## The server model -/

/-- Capability tiers recognised by `McpServerConfig.allowedOperations`. -/
inductive OpTier where
  | read
  | prepare
  | info
  | transaction
deriving DecidableEq

/-- The untyped parameter object handed to a tool handler.  Fields the caller
did not supply are `none` (JavaScript `undefined`).  `toAddr` models the
source's `to` field (a reserved word here). -/
structure ToolArgs where
  toAddr : Option String
  value : Option String
  data : Option String
  token : Option String
  decimals : Option Nat
deriving DecidableEq

/-- Status of a pending confirmation entry. -/
inductive TxStatus where
  | pending
  | confirmed
  | rejected
deriving DecidableEq

/-- One entry of the `pendingConfirmations` map. -/
structure PendingTx where
  params : ToolArgs
  status : TxStatus
  createdAt : Nat
deriving DecidableEq

/-- The `pendingConfirmations : Map<string, ...>` of the server, as an
insertion-ordered association list with unique keys. -/
def PendingMap : Type := List (String × PendingTx)

/-- `Map.get`. -/
def mapGet (m : PendingMap) (k : String) : Option PendingTx :=
  match m with
  | [] => none
  | e :: rest => if e.1 = k then some e.2 else mapGet rest k

/-- `Map.set`: replace in place, or append a new binding. -/
def mapSet (m : PendingMap) (k : String) (v : PendingTx) : PendingMap :=
  match m with
  | [] => [(k, v)]
  | e :: rest => if e.1 = k then (k, v) :: rest else e :: mapSet rest k v

/-- Operations of the external capability provider (`EvmMcpWallet`). -/
inductive WalletOp where
  | getAddress
  | getBalance
  | signTransaction (args : ToolArgs)
  | getTokenBalance (token : Option String) (decimals : Option Nat)
  | sendTransaction (args : ToolArgs)
deriving DecidableEq

/-- The capability provider as an oracle: each operation returns a value or
throws an error message. -/
structure WalletBehavior where
  run : WalletOp → Except String String

/-- What a tool handler does: return a value, or throw an `Error` whose
message is a string. -/
inductive HandlerOutcome where
  | ok (v : Json)
  | raise (msg : String)

/-- A registered tool: its advertised name and its handler.  The handler gets
the raw parameters, the wallet, the fresh confirmation id and current time
(used only by the sendTransaction tool), and the pending map; it returns its
outcome, the updated pending map, and the wallet operations it invoked. -/
structure ToolImpl where
  name : String
  run : ToolArgs → WalletBehavior → String → Nat → PendingMap →
    HandlerOutcome × PendingMap × List WalletOp

/-- Server configuration as passed to the constructor (optional fields). -/
structure McpServerConfig where
  allowedOperations : Option (List OpTier)
  requireConfirmation : Option Bool

/-- Configuration after the constructor's defaulting
(`\x7b allowedOperations: ['read','prepare','info'], requireConfirmation: true,
...serverConfig \x7d`). -/
structure ResolvedConfig where
  allowedOperations : List OpTier
  requireConfirmation : Bool

/-- The constructor's defaulting of the server configuration. -/
def resolveConfig (c : McpServerConfig) : ResolvedConfig :=
  ⟨c.allowedOperations.getD [OpTier.read, OpTier.prepare, OpTier.info],
   c.requireConfirmation.getD true⟩

/-- The `wallet_getAddress` tool (read tier). -/
def getAddressTool : ToolImpl :=
  ⟨"wallet_getAddress", fun _ w _ _ s =>
    match w.run WalletOp.getAddress with
    | .ok a => (HandlerOutcome.ok (Json.str a), s, [WalletOp.getAddress])
    | .error e => (HandlerOutcome.raise e, s, [WalletOp.getAddress])⟩

/-- The `wallet_getBalance` tool (read tier). -/
def getBalanceTool : ToolImpl :=
  ⟨"wallet_getBalance", fun _ w _ _ s =>
    match w.run WalletOp.getBalance with
    | .ok b => (HandlerOutcome.ok (Json.str b), s, [WalletOp.getBalance])
    | .error e => (HandlerOutcome.raise e, s, [WalletOp.getBalance])⟩

/-- The `wallet_signTransaction` tool (prepare tier): passes the raw
parameters to the wallet and wraps the result. -/
def signTransactionTool : ToolImpl :=
  ⟨"wallet_signTransaction", fun args w _ _ s =>
    match w.run (WalletOp.signTransaction args) with
    | .ok st =>
      (HandlerOutcome.ok (Json.obj [("signedTransaction", Json.str st)]), s,
       [WalletOp.signTransaction args])
    | .error e => (HandlerOutcome.raise e, s, [WalletOp.signTransaction args])⟩

/-- The `wallet_getTokenBalance` tool (info tier). -/
def getTokenBalanceTool : ToolImpl :=
  ⟨"wallet_getTokenBalance", fun args w _ _ s =>
    match w.run (WalletOp.getTokenBalance args.token args.decimals) with
    | .ok b =>
      (HandlerOutcome.ok (Json.str b), s, [WalletOp.getTokenBalance args.token args.decimals])
    | .error e =>
      (HandlerOutcome.raise e, s, [WalletOp.getTokenBalance args.token args.decimals])⟩

/-- The inner `JSON.stringify(\x7bzh, en\x7d)` of the confirmation prompt. -/
def needConfInner (txId : String) : String :=
  stringifyStrObj
    [("zh", "交易等待用户确认 (ID: " ++ txId ++ ")"),
     ("en", "Transaction pending confirmation (ID: " ++ txId ++ ")")]

/-- The message of the `Error` thrown by the sendTransaction handler to
signal that confirmation is needed:
`JSON.stringify(\x7bcode: 'NEED_CONFIRMATION', message: JSON.stringify(\x7bzh, en\x7d)\x7d)`. -/
def needConfMessage (txId : String) : String :=
  stringifyStrObj [("code", "NEED_CONFIRMATION"), ("message", needConfInner txId)]

/-- The `wallet_sendTransaction` tool (transaction tier).  Its handler
re-reads `this.config.requireConfirmation`: when set, it records a pending
entry and throws the stringified NEED_CONFIRMATION object; otherwise it
sends immediately. -/
def sendTransactionTool (cfg : ResolvedConfig) : ToolImpl :=
  ⟨"wallet_sendTransaction", fun args w freshId now s =>
    if cfg.requireConfirmation then
      (HandlerOutcome.raise (needConfMessage freshId),
       mapSet s freshId ⟨args, TxStatus.pending, now⟩, [])
    else
      match w.run (WalletOp.sendTransaction args) with
      | .ok h =>
        (HandlerOutcome.ok (Json.obj [("transactionHash", Json.str h)]), s,
         [WalletOp.sendTransaction args])
      | .error e => (HandlerOutcome.raise e, s, [WalletOp.sendTransaction args])⟩

/-- `registerTools`: the tier-gated `this.tools.push(...)` chain, in source
order — read tools, then prepare, then info, then transaction.  The
transaction-tier tool is pushed only when the tier is allowed AND
`requireConfirmation` is set, exactly as in the source. -/
def registerTools (cfg : ResolvedConfig) : List ToolImpl :=
  (if cfg.allowedOperations.contains OpTier.read then [getAddressTool, getBalanceTool] else [])
  ++ (if cfg.allowedOperations.contains OpTier.prepare then [signTransactionTool] else [])
  ++ (if cfg.allowedOperations.contains OpTier.info then [getTokenBalanceTool] else [])
  ++ (if cfg.allowedOperations.contains OpTier.transaction && cfg.requireConfirmation then
        [sendTransactionTool cfg]
      else [])

/-- The names of the registered tools, in registration order. -/
def registeredNames (cfg : ResolvedConfig) : List String :=
  (registerTools cfg).map (fun t => t.name)

/-- A tool-call response: `\x7bresult\x7d`, `\x7berror: <parsed JSON>\x7d`, or
`\x7berror: \x7bcode: 'TOOL_ERROR', message\x7d\x7d`. -/
inductive Response where
  | result (v : Json)
  | jsonError (e : Json)
  | toolError (msg : String)

/-- The CallTool handler's catch block: try `JSON.parse(error.message)`; a
parse success is returned as the structured error, a failure as TOOL_ERROR. -/
def dispatchRaise (msg : String) : Response :=
  match Json.parse msg with
  | some j => Response.jsonError j
  | none => Response.toolError msg

/-- The `CallToolRequestSchema` handler: find the tool by name (an unknown
tool throws, landing in the same catch block), run its handler, and shape the
response.  No validation of the parameters against the tool's input schema
happens anywhere on this path. -/
def callTool (cfg : ResolvedConfig) (s : PendingMap) (name : String) (args : ToolArgs)
    (w : WalletBehavior) (freshId : String) (now : Nat) :
    Response × PendingMap × List WalletOp :=
  match (registerTools cfg).find? (fun t => t.name = name) with
  | none => (dispatchRaise ("Tool " ++ name ++ " not found"), s, [])
  | some t =>
    match t.run args w freshId now s with
    | (HandlerOutcome.ok v, s2, ops) => (Response.result v, s2, ops)
    | (HandlerOutcome.raise m, s2, ops) => (dispatchRaise m, s2, ops)

/-- The not-found message of the confirmation resolver. -/
def notFoundMessage (txId : String) : String :=
  "Transaction with ID " ++ txId ++ " not found"

/-- `McpServer.confirmTransaction`: look the id up (throwing not-found if
absent), set the status to confirmed, then send via the wallet, propagating a
wallet failure.  The stored status is never consulted. -/
def confirmTransaction (s : PendingMap) (txId : String) (w : WalletBehavior) :
    Except String String × PendingMap × List WalletOp :=
  match mapGet s txId with
  | none => (.error (notFoundMessage txId), s, [])
  | some p =>
    let s2 := mapSet s txId ⟨p.params, TxStatus.confirmed, p.createdAt⟩
    match w.run (WalletOp.sendTransaction p.params) with
    | .ok r => (.ok r, s2, [WalletOp.sendTransaction p.params])
    | .error e => (.error e, s2, [WalletOp.sendTransaction p.params])

/-- `McpServer.rejectTransaction`: look the id up (throwing not-found if
absent) and set the status to rejected.  The stored status is never
consulted. -/
def rejectTransaction (s : PendingMap) (txId : String) :
    Except String Unit × PendingMap :=
  match mapGet s txId with
  | none => (.error (notFoundMessage txId), s)
  | some p => (.ok (), mapSet s txId ⟨p.params, TxStatus.rejected, p.createdAt⟩)

/-- The ListTools handler reads `this.tools` and mutates nothing. -/
def listToolNames (tools : List ToolImpl) (s : PendingMap) :
    List String × PendingMap :=
  (tools.map (fun t => t.name), s)

/-- The `^0x[a-fA-F0-9]\x7b40\x7d$` pattern the source declares (but does not
enforce) for address parameters. -/
def validAddress (s : String) : Bool :=
  match s.data with
  | '0' :: 'x' :: rest => rest.length = 40 && rest.all (fun c => (hexVal c).isSome)
  | _ => false

/-- The `^[0-9]+$` pattern the source declares (but does not enforce) for
amount parameters in wei. -/
def validAmount (s : String) : Bool :=
  s.data ≠ [] && s.data.all Char.isDigit

/-- Validity of sendTransaction/signTransaction parameters against the
declared input schema: `to` and `value` required and pattern-matching. -/
def validTxArgs (a : ToolArgs) : Bool :=
  (match a.toAddr with
   | some t => validAddress t
   | none => false)
  && (match a.value with
      | some v => validAmount v
      | none => false)

/-- No control characters: every character has code at least 32. -/
def noCtl (cs : List Char) : Prop := ∀ c ∈ cs, 32 ≤ c.toNat

instance noCtlDecidable (cs : List Char) : Decidable (noCtl cs) :=
  inferInstanceAs (Decidable (∀ c ∈ cs, 32 ≤ c.toNat))

/-- A well-formed 0x-prefixed 40-hex-character address. -/
def sampleAddrHex : String := "0x1234567890abcdef1234567890abcdef12345678"

/-- Valid sendTransaction parameters. -/
def sampleArgs : ToolArgs := ⟨some sampleAddrHex, some "1000000000000000", none, none, none⟩

/-- Parameters violating both declared patterns (`to` not an address,
`value` not a digit string). -/
def badArgs : ToolArgs := ⟨some "zzz", some "abc", none, none, none⟩

/-- A wallet that always succeeds with a fixed hash. -/
def wOk : WalletBehavior := ⟨fun _ => Except.ok "0xabc123"⟩

/-- A wallet that always fails with a plain (non-JSON) message. -/
def wFail : WalletBehavior := ⟨fun _ => Except.error "insufficient funds"⟩

/-- A wallet whose failure message happens to be valid JSON text. -/
def wJsonErr : WalletBehavior := ⟨fun _ => Except.error "\x7b\"code\":\"RPC_ERROR\"\x7d"⟩

/-- All four tiers enabled, confirmation required. -/
def cfgAll : ResolvedConfig :=
  ⟨[OpTier.read, OpTier.prepare, OpTier.info, OpTier.transaction], true⟩

/-- All four tiers enabled, confirmation NOT required. -/
def cfgTxNoConf : ResolvedConfig :=
  ⟨[OpTier.read, OpTier.prepare, OpTier.info, OpTier.transaction], false⟩

/-- The fixed tool/tier table of the server, in registration order. -/
def canonicalToolTiers : List (String × OpTier) :=
  [("wallet_getAddress", OpTier.read),
   ("wallet_getBalance", OpTier.read),
   ("wallet_signTransaction", OpTier.prepare),
   ("wallet_getTokenBalance", OpTier.info),
   ("wallet_sendTransaction", OpTier.transaction)]

/-- Modelled from the spec: "`listEnabled()` returns the ordered sequence of
descriptors whose tier is in the active configuration" — the names of
`canonicalToolTiers` whose tier is enabled, with no further condition. -/
def specEnabledNames (cfg : ResolvedConfig) : List String :=
  (canonicalToolTiers.filter
    (fun nt => cfg.allowedOperations.contains nt.2)).map (fun nt => nt.1)

/-- The names of enabled tiers in registration order, with the transaction
tool additionally gated on `requireConfirmation` — what the code registers. -/
def specEnabledNamesGated (cfg : ResolvedConfig) : List String :=
  (canonicalToolTiers.filter
    (fun nt => cfg.allowedOperations.contains nt.2 &&
      (if nt.2 = OpTier.transaction then cfg.requireConfirmation else true))).map
    (fun nt => nt.1)


/-! ## Sanity checks of the JSON grammar -/

example : Json.parse "\x7b\"code\":\"X\"\x7d" = some (Json.obj [("code", Json.str "X")]) := rfl

example : Json.parse "Transaction with ID a not found" = none := rfl

example : Json.parse " -32000 " = some (Json.num "-32000") := rfl

example : Json.parse "[true, null]" = some (Json.arr [Json.bool true, Json.null]) := rfl

example : Json.parse "\x7b\"a\":1,\x7d" = none := rfl

example : Json.parse (stringifyStrObj [("zh", "确认"), ("en", "ok \"q\"")]) =
    some (Json.obj [("zh", Json.str "确认"), ("en", Json.str "ok \"q\"")]) := rfl

/-! ## Map and list helper lemmas -/

theorem mapGet_mapSet_self (m : PendingMap) (k : String) (v : PendingTx) :
    mapGet (mapSet m k v) k = some v := by
  induction m with
  | nil => simp [mapSet, mapGet]
  | cons e rest ih =>
    by_cases h : e.1 = k
    · simp [mapSet, mapGet, h]
    · simp [mapSet, mapGet, h, ih]

theorem find?_append_none {α : Type} (p : α → Bool) (xs ys : List α)
    (h : ∀ x ∈ xs, p x = false) :
    List.find? p (xs ++ ys) = List.find? p ys := by
  induction xs with
  | nil => simp
  | cons a l ih =>
    have ha : p a = false := h a (by simp)
    have hl : ∀ x ∈ l, p x = false := fun x hx => h x (by simp [hx])
    simp [List.find?_cons, ha, ih hl]

/-! ## Roundtrip of the JSON string escaping -/

theorem psb_quote (f : Nat) (rest : List Char) :
    parseStringBody (Nat.succ f) ('"' :: rest) = some ([], rest) := rfl

theorem psb_escQ (f : Nat) (out : List Char) :
    parseStringBody (Nat.succ f) ('\\' :: '"' :: out) = consM '"' (parseStringBody f out) := rfl

theorem psb_escB (f : Nat) (out : List Char) :
    parseStringBody (Nat.succ f) ('\\' :: '\\' :: out) =
      consM '\\' (parseStringBody f out) := rfl

theorem psb_plain (f : Nat) (c : Char) (out : List Char) (h1 : ¬ c = '"') (h2 : ¬ c = '\\')
    (h3 : ¬ c.toNat < 32) :
    parseStringBody (Nat.succ f) (c :: out) = consM c (parseStringBody f out) := by
  simp only [parseStringBody]
  rw [if_neg h1, if_neg h2, if_neg h3]

/-- Escaping then parsing a string body is the identity, for strings without
control characters and any sufficient fuel. -/
theorem parseStringBody_escBody (s : List Char) :
    ∀ (f : Nat) (rest : List Char), noCtl s → (escBody s).length < f →
      parseStringBody f (escBody s ++ '"' :: rest) = some (s, rest) := by
  induction s with
  | nil =>
    intro f rest _ hf
    match f, hf with
    | Nat.succ g, _ => simp [escBody, psb_quote]
  | cons c cs ih =>
    intro f rest h hf
    have hc : 32 ≤ c.toNat := h c (by simp)
    have hcs : noCtl cs := fun x hx => h x (by simp [hx])
    by_cases h1 : c = '"'
    · subst h1
      have hesc : escBody ('"' :: cs) = '\\' :: '"' :: escBody cs := by
        simp [escBody, escChar]
      rw [hesc] at hf ⊢
      match f, hf with
      | Nat.succ g, hf =>
        have hg : (escBody cs).length < g := by
          simp only [List.length_cons] at hf
          omega
        simp only [List.cons_append]
        rw [psb_escQ, ih g rest hcs hg]
        simp [consM]
    · by_cases h2 : c = '\\'
      · subst h2
        have hesc : escBody ('\\' :: cs) = '\\' :: '\\' :: escBody cs := by
          simp [escBody, escChar]
        rw [hesc] at hf ⊢
        match f, hf with
        | Nat.succ g, hf =>
          have hg : (escBody cs).length < g := by
            simp only [List.length_cons] at hf
            omega
          simp only [List.cons_append]
          rw [psb_escB, ih g rest hcs hg]
          simp [consM]
      · have h3 : ¬ c.toNat < 32 := by omega
        have hesc : escBody (c :: cs) = c :: escBody cs := by
          simp [escBody, escChar, h1, h2, h3]
        rw [hesc] at hf ⊢
        match f, hf with
        | Nat.succ g, hf =>
          have hg : (escBody cs).length < g := by
            simp only [List.length_cons] at hf
            omega
          simp only [List.cons_append]
          rw [psb_plain g c _ h1 h2 h3, ih g rest hcs hg]
          simp [consM]

/-! ## Parsing a stringified two-field string object -/

theorem strMkData (s : String) : String.mk s.data = s := rfl

theorem noCtl_append (a b : List Char) (ha : noCtl a) (hb : noCtl b) : noCtl (a ++ b) := by
  intro c hc
  rcases List.mem_append.mp hc with h | h
  · exact ha c h
  · exact hb c h

theorem noCtl_escBody (s : List Char) (h : noCtl s) : noCtl (escBody s) := by
  induction s with
  | nil => intro c hc; simp [escBody] at hc
  | cons c cs ih =>
    have hc : 32 ≤ c.toNat := h c (by simp)
    have hcs : noCtl cs := fun x hx => h x (by simp [hx])
    intro x hx
    simp only [escBody] at hx
    rcases List.mem_append.mp hx with h1 | h1
    · by_cases e1 : c = '"'
      · subst e1
        simp [escChar] at h1
        rcases h1 with h1 | h1 <;> subst h1 <;> decide
      · by_cases e2 : c = '\\'
        · subst e2
          simp [escChar] at h1
          subst h1
          decide
        · have e3 : ¬ c.toNat < 32 := by omega
          simp [escChar, e1, e2, e3] at h1
          subst h1
          exact hc
    · exact ih hcs x h1

theorem sw_nws (c : Char) (X : List Char) (h : isJsonWs c = false) :
    skipWs (c :: X) = c :: X := by
  simp [skipWs, h]

theorem pv_objQ (f : Nat) (R : List Char) :
    parseValue (Nat.succ f) ('\x7b' :: '"' :: R) =
      (parseObjMembers f ('"' :: R)).map (fun p => (Json.obj p.1, p.2)) := rfl

theorem pv_str (f : Nat) (R : List Char) :
    parseValue (Nat.succ f) ('"' :: R) =
      (parseStringBody (R.length + 1) R).map (fun p => (Json.str (String.mk p.1), p.2)) := rfl

theorem pom_step (f : Nat) (R : List Char) :
    parseObjMembers (Nat.succ f) ('"' :: R) =
      (match parseStringBody (R.length + 1) R with
       | none => none
       | some (key, r1) =>
         match skipWs r1 with
         | ':' :: r2 =>
           (match parseValue f r2 with
            | none => none
            | some (v, r3) =>
              match skipWs r3 with
              | ',' :: r4 => (parseObjMembers f r4).map
                  (fun p => ((String.mk key, v) :: p.1, p.2))
              | '\x7d' :: r4 => some ([(String.mk key, v)], r4)
              | _ => none)
         | _ => none) := rfl

theorem pv_str_some (f : Nat) (R body T : List Char)
    (h : parseStringBody (R.length + 1) R = some (body, T)) :
    parseValue (Nat.succ f) ('"' :: R) = some (Json.str (String.mk body), T) := by
  rw [pv_str, h]
  rfl

theorem pom_colon (f : Nat) (R key X : List Char)
    (hps : parseStringBody (R.length + 1) R = some (key, ':' :: X)) :
    parseObjMembers (Nat.succ f) ('"' :: R) =
      (match parseValue f X with
       | none => none
       | some (v, r3) =>
         match skipWs r3 with
         | ',' :: r4 => (parseObjMembers f r4).map
             (fun p => ((String.mk key, v) :: p.1, p.2))
         | '\x7d' :: r4 => some ([(String.mk key, v)], r4)
         | _ => none) := by
  rw [pom_step, hps]
  rfl

theorem pom_member_more (f : Nat) (R key X : List Char) (v : Json) (r4 : List Char)
    (hps : parseStringBody (R.length + 1) R = some (key, ':' :: X))
    (hv : parseValue f X = some (v, ',' :: '"' :: r4)) :
    parseObjMembers (Nat.succ f) ('"' :: R) =
      (parseObjMembers f ('"' :: r4)).map
        (fun p => ((String.mk key, v) :: p.1, p.2)) := by
  rw [pom_colon f R key X hps, hv]
  rfl

theorem pom_member_last (f : Nat) (R key X : List Char) (v : Json) (T : List Char)
    (hps : parseStringBody (R.length + 1) R = some (key, ':' :: X))
    (hv : parseValue f X = some (v, '\x7d' :: T)) :
    parseObjMembers (Nat.succ f) ('"' :: R) = some ([(String.mk key, v)], T) := by
  rw [pom_colon f R key X hps, hv]
  rfl

theorem parseValue_strObj2 (f : Nat) (k1 v1 k2 v2 : String)
    (hk1 : noCtl k1.data) (hv1 : noCtl v1.data) (hk2 : noCtl k2.data) (hv2 : noCtl v2.data) :
    parseValue (Nat.succ (Nat.succ (Nat.succ (Nat.succ f))))
        (stringifyStrObj [(k1, v1), (k2, v2)]).data
      = some (Json.obj [(k1, Json.str v1), (k2, Json.str v2)], []) := by
  have hd : (stringifyStrObj [(k1, v1), (k2, v2)]).data
      = '\x7b' :: '"' :: (escBody k1.data ++ '"' :: ':' :: '"' ::
          (escBody v1.data ++ '"' :: ',' :: '"' ::
            (escBody k2.data ++ '"' :: ':' :: '"' ::
              (escBody v2.data ++ '"' :: '\x7d' :: [])))) := by
    simp [stringifyStrObj, fieldsChars, fieldChars, strLitChars, List.append_assoc]
  rw [hd, pv_objQ]
  rw [pom_member_more _ _ _ _ _ _
        (parseStringBody_escBody k1.data _ _ hk1 (by simp [List.length_append]; omega))
        (pv_str_some _ _ _ _
          (parseStringBody_escBody v1.data _ _ hv1 (by simp [List.length_append]; omega)))]
  rw [pom_member_last _ _ _ _ _ _
        (parseStringBody_escBody k2.data _ _ hk2 (by simp [List.length_append]; omega))
        (pv_str_some _ _ _ _
          (parseStringBody_escBody v2.data _ _ hv2 (by simp [List.length_append]; omega)))]
  simp [Option.map, strMkData]

/-- `JSON.parse` inverts `JSON.stringify` on a two-field flat string object
with control-character-free components. -/
theorem parse_strObj2 (k1 v1 k2 v2 : String)
    (hk1 : noCtl k1.data) (hv1 : noCtl v1.data) (hk2 : noCtl k2.data) (hv2 : noCtl v2.data) :
    Json.parse (stringifyStrObj [(k1, v1), (k2, v2)])
      = some (Json.obj [(k1, Json.str v1), (k2, Json.str v2)]) := by
  have hlen : 3 ≤ (stringifyStrObj [(k1, v1), (k2, v2)]).data.length := by
    simp [stringifyStrObj, fieldsChars, fieldChars, strLitChars, List.length_append]
    omega
  unfold Json.parse
  rw [show (stringifyStrObj [(k1, v1), (k2, v2)]).data.length + 1
      = Nat.succ (Nat.succ (Nat.succ (Nat.succ
          ((stringifyStrObj [(k1, v1), (k2, v2)]).data.length - 3)))) from by omega]
  rw [parseValue_strObj2 _ _ _ _ _ hk1 hv1 hk2 hv2]
  simp [skipWs]

/-! ## Fixtures and registry lemmas -/

theorem mem_iteNil {α : Type} (c : Prop) [inst : Decidable c] (l : List α) (x : α)
    (hx : x ∈ (if c then l else [])) : c ∧ x ∈ l := by
  split at hx
  · exact ⟨by assumption, hx⟩
  · simp at hx

/-- Everything in the registry is one of the five tools. -/
theorem mem_registerTools (cfg : ResolvedConfig) (t : ToolImpl) (ht : t ∈ registerTools cfg) :
    t = getAddressTool ∨ t = getBalanceTool ∨ t = signTransactionTool ∨
      t = getTokenBalanceTool ∨ t = sendTransactionTool cfg := by
  unfold registerTools at ht
  rcases List.mem_append.mp ht with h | h
  · rcases List.mem_append.mp h with h | h
    · rcases List.mem_append.mp h with h | h
      · have h2 := (mem_iteNil _ _ _ h).2
        simp at h2
        tauto
      · have h2 := (mem_iteNil _ _ _ h).2
        simp at h2
        tauto
    · have h2 := (mem_iteNil _ _ _ h).2
      simp at h2
      tauto
  · have h2 := (mem_iteNil _ _ _ h).2
    simp at h2
    tauto

/-- With `requireConfirmation` unset, no registered tool is named
`wallet_sendTransaction`: the transaction tool was never pushed. -/
theorem find?_sendTx_none (cfg : ResolvedConfig) (hconf : cfg.requireConfirmation = false) :
    (registerTools cfg).find? (fun t => t.name = "wallet_sendTransaction") = none := by
  rw [List.find?_eq_none]
  intro t ht
  unfold registerTools at ht
  rcases List.mem_append.mp ht with h | h
  · rcases List.mem_append.mp h with h | h
    · rcases List.mem_append.mp h with h | h
      · have h2 := (mem_iteNil _ _ _ h).2
        simp at h2
        rcases h2 with h2 | h2 <;> subst h2 <;> decide
      · have h2 := (mem_iteNil _ _ _ h).2
        simp at h2
        subst h2
        decide
    · have h2 := (mem_iteNil _ _ _ h).2
      simp at h2
      subst h2
      decide
  · have h2 := mem_iteNil _ _ _ h
    rw [hconf] at h2
    simp at h2

/-- With the transaction tier allowed and confirmation required, the lookup
of `wallet_sendTransaction` finds the transaction tool. -/
theorem find?_sendTx_some (cfg : ResolvedConfig)
    (htier : cfg.allowedOperations.contains OpTier.transaction = true)
    (hconf : cfg.requireConfirmation = true) :
    (registerTools cfg).find? (fun t => t.name = "wallet_sendTransaction")
      = some (sendTransactionTool cfg) := by
  unfold registerTools
  have h4 : (cfg.allowedOperations.contains OpTier.transaction &&
      cfg.requireConfirmation) = true := by
    rw [htier, hconf]
    rfl
  rw [h4]
  have hall : ∀ x ∈ ((if cfg.allowedOperations.contains OpTier.read = true then
        [getAddressTool, getBalanceTool] else [])
      ++ (if cfg.allowedOperations.contains OpTier.prepare = true then
        [signTransactionTool] else []))
      ++ (if cfg.allowedOperations.contains OpTier.info = true then
        [getTokenBalanceTool] else []),
      (fun (t : ToolImpl) => (t.name = "wallet_sendTransaction" : Bool)) x = false := by
    intro x hx
    rcases List.mem_append.mp hx with h | h
    · rcases List.mem_append.mp h with h | h
      · have h2 := (mem_iteNil _ _ _ h).2
        simp at h2
        rcases h2 with h2 | h2 <;> subst h2 <;> decide
      · have h2 := (mem_iteNil _ _ _ h).2
        simp at h2
        subst h2
        decide
    · have h2 := (mem_iteNil _ _ _ h).2
      simp at h2
      subst h2
      decide
  rw [if_pos rfl, find?_append_none _ _ _ hall]
  rfl

/-- With the read tier allowed, the lookup of `wallet_getAddress` finds the
getAddress tool (it is the first tool pushed). -/
theorem find?_getAddress_some (cfg : ResolvedConfig)
    (hread : cfg.allowedOperations.contains OpTier.read = true) :
    (registerTools cfg).find? (fun t => t.name = "wallet_getAddress")
      = some getAddressTool := by
  unfold registerTools
  rw [hread, if_pos rfl]
  rfl

/-! ## Control-character-freeness of the constructed messages -/

theorem strDataAppend (a b : String) : (a ++ b).data = a.data ++ b.data := rfl

theorem noCtl_strLit (s : String) (h : noCtl s.data) : noCtl (strLitChars s) := by
  intro c hc
  simp only [strLitChars, List.mem_cons, List.mem_append] at hc
  rcases hc with rfl | hc | hc
  · decide
  · exact noCtl_escBody _ h c hc
  · simp at hc
    subst hc
    decide

theorem noCtl_fieldChars (kv : String × String) (h1 : noCtl kv.1.data)
    (h2 : noCtl kv.2.data) : noCtl (fieldChars kv) := by
  intro c hc
  simp only [fieldChars, List.mem_append, List.mem_cons] at hc
  rcases hc with hc | rfl | hc
  · exact noCtl_strLit _ h1 c hc
  · decide
  · exact noCtl_strLit _ h2 c hc

theorem noCtl_fieldsChars (fs : List (String × String))
    (h : ∀ kv ∈ fs, noCtl kv.1.data ∧ noCtl kv.2.data) : noCtl (fieldsChars fs) := by
  induction fs with
  | nil => intro c hc; simp [fieldsChars] at hc
  | cons kv rest ih =>
    intro c hc
    cases rest with
    | nil =>
      rw [show fieldsChars [kv] = fieldChars kv from rfl] at hc
      exact noCtl_fieldChars kv (h kv (by simp)).1 (h kv (by simp)).2 c hc
    | cons kv2 rest2 =>
      rw [show fieldsChars (kv :: kv2 :: rest2)
          = fieldChars kv ++ ',' :: fieldsChars (kv2 :: rest2) from rfl] at hc
      simp only [List.mem_append, List.mem_cons] at hc
      rcases hc with hc | rfl | hc
      · exact noCtl_fieldChars kv (h kv (by simp)).1 (h kv (by simp)).2 c hc
      · decide
      · exact ih (fun x hx => h x (by simp [hx])) c hc

theorem noCtl_stringifyStrObj (fs : List (String × String))
    (h : ∀ kv ∈ fs, noCtl kv.1.data ∧ noCtl kv.2.data) :
    noCtl (stringifyStrObj fs).data := by
  intro c hc
  rw [show (stringifyStrObj fs).data = '\x7b' :: (fieldsChars fs ++ ['\x7d']) from rfl] at hc
  simp only [List.mem_cons, List.mem_append] at hc
  rcases hc with rfl | hc | hc
  · decide
  · exact noCtl_fieldsChars fs h c hc
  · simp at hc
    subst hc
    decide

theorem noCtl_str_append (a b : String) (ha : noCtl a.data) (hb : noCtl b.data) :
    noCtl (a ++ b).data := by
  rw [strDataAppend]
  exact noCtl_append _ _ ha hb

theorem noCtl_needConfInner (txId : String) (h : noCtl txId.data) :
    noCtl (needConfInner txId).data := by
  unfold needConfInner
  apply noCtl_stringifyStrObj
  intro kv hkv
  simp only [List.mem_cons, List.mem_singleton] at hkv
  rcases hkv with rfl | hkv
  · constructor
    · show noCtl ("zh" : String).data
      decide
    · show noCtl ("交易等待用户确认 (ID: " ++ txId ++ ")").data
      exact noCtl_str_append _ _ (noCtl_str_append _ _ (by decide) h) (by decide)
  · simp at hkv
    subst hkv
    constructor
    · show noCtl ("en" : String).data
      decide
    · show noCtl ("Transaction pending confirmation (ID: " ++ txId ++ ")").data
      exact noCtl_str_append _ _ (noCtl_str_append _ _ (by decide) h) (by decide)

/-! ## Claim theorems -/

/-- C1: the spec claims that of two `confirm` calls on the same id exactly one
succeeds and executes the deferred capability call, the other failing with
AlreadyResolved.  The code has no such guard: `confirmTransaction` never reads
the stored status.  Evaluated on a pending entry, BOTH calls return success
and BOTH invoke `wallet.sendTransaction` — a double execution. -/
theorem confirmTransaction_twice_reexecutes :
    confirmTransaction [("tx1", ⟨sampleArgs, TxStatus.pending, 1000⟩)] "tx1" wOk
      = (Except.ok "0xabc123", [("tx1", ⟨sampleArgs, TxStatus.confirmed, 1000⟩)],
         [WalletOp.sendTransaction sampleArgs])
    ∧ confirmTransaction [("tx1", ⟨sampleArgs, TxStatus.confirmed, 1000⟩)] "tx1" wOk
      = (Except.ok "0xabc123", [("tx1", ⟨sampleArgs, TxStatus.confirmed, 1000⟩)],
         [WalletOp.sendTransaction sampleArgs]) :=
  ⟨rfl, rfl⟩

/-- C2: the spec claims a `reject` on an already-confirmed id fails with
AlreadyResolved and never silently succeeds.  The code's `rejectTransaction`
never reads the stored status: after a successful confirm, reject returns
success and overwrites the terminal `confirmed` status with `rejected`. -/
theorem reject_after_confirm_silently_succeeds :
    confirmTransaction [("tx1", ⟨sampleArgs, TxStatus.pending, 1000⟩)] "tx1" wOk
      = (Except.ok "0xabc123", [("tx1", ⟨sampleArgs, TxStatus.confirmed, 1000⟩)],
         [WalletOp.sendTransaction sampleArgs])
    ∧ rejectTransaction [("tx1", ⟨sampleArgs, TxStatus.confirmed, 1000⟩)] "tx1"
      = (Except.ok (), [("tx1", ⟨sampleArgs, TxStatus.rejected, 1000⟩)]) :=
  ⟨rfl, rfl⟩

/-- C3: the spec claims a call whose parameters are missing a required field
or fail the declared address/amount patterns returns InvalidParameters and
never reaches the Capability Provider.  The dispatcher performs no schema
validation: with `to = "zzz"` and `value = "abc"` (both patterns violated,
`validTxArgs` is false), the signTransaction handler still invokes the wallet
with the raw parameters and returns its result. -/
theorem invalid_params_reach_wallet :
    validTxArgs badArgs = false ∧
    callTool cfgAll [] "wallet_signTransaction" badArgs wOk "id1" 5
      = (Response.result (Json.obj [("signedTransaction", Json.str "0xabc123")]), [],
         [WalletOp.signTransaction badArgs]) :=
  ⟨rfl, rfl⟩

/-- C4 counterexample: the claim says a pending call older than the expiry
window fails `confirm` with NotFound, expiry being checked at access time.
The resolver takes no clock input at all: on an entry created at time 0 it
still succeeds and executes, however much later it is called. -/
theorem confirmTransaction_no_expiry_check :
    confirmTransaction [("old", ⟨sampleArgs, TxStatus.pending, 0⟩)] "old" wOk
      = (Except.ok "0xabc123", [("old", ⟨sampleArgs, TxStatus.confirmed, 0⟩)],
         [WalletOp.sendTransaction sampleArgs]) := rfl

/-- C4 amended: `confirm`/`reject` fail with the not-found error exactly when
the id is absent from the map; the entry's age is never consulted — the
result of `confirm` is unchanged under arbitrary rewrites of `createdAt`.
There is no access-time expiry and no sweep. -/
theorem confirm_reject_age_independent :
    (∀ (s : PendingMap) (txId : String) (w : WalletBehavior),
       mapGet s txId = none →
       (confirmTransaction s txId w).1 = Except.error (notFoundMessage txId)) ∧
    (∀ (s : PendingMap) (txId : String),
       mapGet s txId = none →
       (rejectTransaction s txId).1 = Except.error (notFoundMessage txId)) ∧
    (∀ (s : PendingMap) (txId : String) (w : WalletBehavior) (p : PendingTx) (t : Nat),
       mapGet s txId = some p →
       (confirmTransaction (mapSet s txId ⟨p.params, p.status, t⟩) txId w).1
         = (confirmTransaction s txId w).1) := by
  refine ⟨?_, ?_, ?_⟩
  · intro s txId w h
    unfold confirmTransaction
    rw [h]
  · intro s txId h
    unfold rejectTransaction
    rw [h]
  · intro s txId w p t h
    unfold confirmTransaction
    rw [h, mapGet_mapSet_self]
    cases hr : w.run (WalletOp.sendTransaction p.params) <;> simp [hr]

/-- Witness for the amended C4 statement at concrete inputs. -/
theorem confirm_reject_age_independent_witness :
    (confirmTransaction [] "nope" wOk).1 = Except.error (notFoundMessage "nope") ∧
    (rejectTransaction [] "nope").1 = Except.error (notFoundMessage "nope") ∧
    (confirmTransaction (mapSet [("a", ⟨sampleArgs, TxStatus.pending, 0⟩)] "a"
        ⟨sampleArgs, TxStatus.pending, 999999⟩) "a" wOk).1
      = (confirmTransaction [("a", ⟨sampleArgs, TxStatus.pending, 0⟩)] "a" wOk).1 :=
  ⟨confirm_reject_age_independent.1 [] "nope" wOk rfl,
   confirm_reject_age_independent.2.1 [] "nope" rfl,
   confirm_reject_age_independent.2.2 [("a", ⟨sampleArgs, TxStatus.pending, 0⟩)] "a" wOk
     ⟨sampleArgs, TxStatus.pending, 0⟩ 999999 rfl⟩

/-- C5: a call to `wallet_sendTransaction` under `requireConfirmation` does
not execute the capability call (no wallet operations), returns the parsed
NEED_CONFIRMATION structured error whose message text carries the fresh
confirmation id, and a fresh PendingCall with status `pending` for that id
exists in the store. -/
theorem sendTransaction_defers (cfg : ResolvedConfig) (s : PendingMap) (args : ToolArgs)
    (w : WalletBehavior) (freshId : String) (now : Nat)
    (htier : cfg.allowedOperations.contains OpTier.transaction = true)
    (hconf : cfg.requireConfirmation = true)
    (hid : noCtl freshId.data) :
    callTool cfg s "wallet_sendTransaction" args w freshId now
      = (Response.jsonError (Json.obj
            [("code", Json.str "NEED_CONFIRMATION"),
             ("message", Json.str (needConfInner freshId))]),
         mapSet s freshId ⟨args, TxStatus.pending, now⟩, [])
    ∧ mapGet (mapSet s freshId ⟨args, TxStatus.pending, now⟩) freshId
        = some ⟨args, TxStatus.pending, now⟩ := by
  constructor
  · unfold callTool
    rw [find?_sendTx_some cfg htier hconf]
    dsimp only [sendTransactionTool]
    rw [hconf, if_pos rfl]
    dsimp only
    unfold dispatchRaise needConfMessage
    rw [parse_strObj2 _ _ _ _ (by decide) (by decide) (by decide)
      (noCtl_needConfInner freshId hid)]
  · exact mapGet_mapSet_self s freshId ⟨args, TxStatus.pending, now⟩

/-- Witness for C5 at concrete inputs. -/
theorem sendTransaction_defers_witness :
    callTool cfgAll [] "wallet_sendTransaction" sampleArgs wOk "id-7" 42
      = (Response.jsonError (Json.obj
            [("code", Json.str "NEED_CONFIRMATION"),
             ("message", Json.str (needConfInner "id-7"))]),
         mapSet [] "id-7" ⟨sampleArgs, TxStatus.pending, 42⟩, [])
    ∧ mapGet (mapSet [] "id-7" ⟨sampleArgs, TxStatus.pending, 42⟩) "id-7"
        = some ⟨sampleArgs, TxStatus.pending, 42⟩ :=
  sendTransaction_defers cfgAll [] sampleArgs wOk "id-7" 42 rfl rfl (by decide)

/-- C6 counterexample: with the transaction tier enabled but
`requireConfirmation` false, a valid sendTransaction call does NOT execute
immediately — the tool was never registered, so the call fails as an unknown
tool (TOOL_ERROR) with no wallet operation and no state change. -/
theorem sendTransaction_no_immediate_execution :
    validTxArgs sampleArgs = true ∧
    callTool cfgTxNoConf [] "wallet_sendTransaction" sampleArgs wOk "id1" 5
      = (Response.toolError "Tool wallet_sendTransaction not found", [], []) :=
  ⟨rfl, rfl⟩

/-- C6 amended: whenever `requireConfirmation` is false the sendTransaction
tool is not registered (the registration gate is tier AND flag), so any
`wallet_sendTransaction` call — transaction tier enabled or not — returns the
tool-not-found TOOL_ERROR, leaves the store unchanged, and performs no
capability call; the handler's immediate-execution branch is unreachable. -/
theorem sendTransaction_not_registered_without_confirmation
    (cfg : ResolvedConfig) (s : PendingMap) (args : ToolArgs) (w : WalletBehavior)
    (freshId : String) (now : Nat)
    (hconf : cfg.requireConfirmation = false) :
    callTool cfg s "wallet_sendTransaction" args w freshId now
      = (Response.toolError "Tool wallet_sendTransaction not found", s, []) := by
  unfold callTool
  rw [find?_sendTx_none cfg hconf]
  rfl

/-- Witness for the amended C6 statement at concrete inputs. -/
theorem sendTransaction_not_registered_without_confirmation_witness :
    callTool cfgTxNoConf [("p", ⟨sampleArgs, TxStatus.pending, 1⟩)] "wallet_sendTransaction"
        sampleArgs wFail "id9" 3
      = (Response.toolError "Tool wallet_sendTransaction not found",
         [("p", ⟨sampleArgs, TxStatus.pending, 1⟩)], []) :=
  sendTransaction_not_registered_without_confirmation cfgTxNoConf _ _ _ _ _ rfl

/-- C7: when the capability call issued by a confirm fails, the PendingCall's
status is and remains `confirmed` (it is not reset to pending), and the
wallet's failure message is propagated verbatim to the caller. -/
theorem confirm_capability_failure_stays_confirmed
    (s : PendingMap) (txId : String) (w : WalletBehavior) (p : PendingTx) (msg : String)
    (hp : mapGet s txId = some p)
    (hw : w.run (WalletOp.sendTransaction p.params) = Except.error msg) :
    confirmTransaction s txId w
      = (Except.error msg, mapSet s txId ⟨p.params, TxStatus.confirmed, p.createdAt⟩,
         [WalletOp.sendTransaction p.params])
    ∧ mapGet (confirmTransaction s txId w).2.1 txId
        = some ⟨p.params, TxStatus.confirmed, p.createdAt⟩ := by
  have h1 : confirmTransaction s txId w
      = (Except.error msg, mapSet s txId ⟨p.params, TxStatus.confirmed, p.createdAt⟩,
         [WalletOp.sendTransaction p.params]) := by
    unfold confirmTransaction
    rw [hp]
    dsimp only
    rw [hw]
  refine ⟨h1, ?_⟩
  rw [h1]
  exact mapGet_mapSet_self s txId ⟨p.params, TxStatus.confirmed, p.createdAt⟩

/-- Witness for C7 at concrete inputs. -/
theorem confirm_capability_failure_stays_confirmed_witness :
    confirmTransaction [("t", ⟨sampleArgs, TxStatus.pending, 3⟩)] "t" wFail
      = (Except.error "insufficient funds",
         mapSet [("t", ⟨sampleArgs, TxStatus.pending, 3⟩)] "t"
           ⟨sampleArgs, TxStatus.confirmed, 3⟩,
         [WalletOp.sendTransaction sampleArgs])
    ∧ mapGet (confirmTransaction [("t", ⟨sampleArgs, TxStatus.pending, 3⟩)] "t" wFail).2.1 "t"
        = some ⟨sampleArgs, TxStatus.confirmed, 3⟩ :=
  confirm_capability_failure_stays_confirmed [("t", ⟨sampleArgs, TxStatus.pending, 3⟩)] "t"
    wFail ⟨sampleArgs, TxStatus.pending, 3⟩ "insufficient funds" rfl rfl

theorem dispatchRaise_ne_jsonError_of_parse_none (msg : String)
    (h : Json.parse msg = none) :
    ∀ j, dispatchRaise msg ≠ Response.jsonError j := by
  intro j
  unfold dispatchRaise
  rw [h]
  intro hc
  exact Response.noConfusion hc

/-- A dispatched call to a stateless pass-through tool leaves the store
unchanged and never yields a structured (jsonError) response when the
capability's failure messages are not JSON text. -/
theorem callTool_simple_step (cfg : ResolvedConfig) (s : PendingMap) (args : ToolArgs)
    (w : WalletBehavior) (freshId : String) (now : Nat) (name : String) (t : ToolImpl)
    (hfind : (registerTools cfg).find? (fun x => x.name = name) = some t)
    (op : WalletOp) (val : String → Json)
    (hrun : ∀ s' : PendingMap, t.run args w freshId now s'
      = (match w.run op with
         | .ok x => (HandlerOutcome.ok (val x), s', [op])
         | .error e => (HandlerOutcome.raise e, s', [op])))
    (hw : ∀ msg, w.run op = Except.error msg → Json.parse msg = none) :
    (callTool cfg s name args w freshId now).2.1 = s ∧
    ∀ j, (callTool cfg s name args w freshId now).1 ≠ Response.jsonError j := by
  have hresp : callTool cfg s name args w freshId now
      = match t.run args w freshId now s with
        | (HandlerOutcome.ok v, s2, ops) => (Response.result v, s2, ops)
        | (HandlerOutcome.raise m, s2, ops) => (dispatchRaise m, s2, ops) := by
    unfold callTool
    rw [hfind]
  rw [hresp, hrun s]
  cases hrunw : w.run op with
  | ok x => exact ⟨rfl, fun j h => Response.noConfusion h⟩
  | error e =>
    exact ⟨rfl, fun j => dispatchRaise_ne_jsonError_of_parse_none e (hw e hrunw) j⟩

/-- C8: for every call to one of the read/info/prepare tools, the pending
store is unchanged (no PendingCall is ever created) and the response is never
a structured jsonError — in particular never the NEED_CONFIRMATION signal —
provided capability failure messages are plain (non-JSON) text; the response
is the capability's result or an error derived from its message. -/
theorem read_info_prepare_no_confirmation
    (cfg : ResolvedConfig) (s : PendingMap) (args : ToolArgs) (w : WalletBehavior)
    (freshId : String) (now : Nat) (name : String)
    (hname : name = "wallet_getAddress" ∨ name = "wallet_getBalance" ∨
      name = "wallet_signTransaction" ∨ name = "wallet_getTokenBalance")
    (hw : ∀ (op : WalletOp) (msg : String),
      w.run op = Except.error msg → Json.parse msg = none) :
    (callTool cfg s name args w freshId now).2.1 = s ∧
    ∀ j, (callTool cfg s name args w freshId now).1 ≠ Response.jsonError j := by
  cases hfind : (registerTools cfg).find? (fun t => t.name = name) with
  | none =>
    have hresp : callTool cfg s name args w freshId now
        = (dispatchRaise ("Tool " ++ name ++ " not found"), s, []) := by
      unfold callTool
      rw [hfind]
    have hparse : Json.parse ("Tool " ++ name ++ " not found") = none := by
      rcases hname with rfl | rfl | rfl | rfl <;> rfl
    refine ⟨by rw [hresp], fun j => ?_⟩
    rw [hresp]
    exact dispatchRaise_ne_jsonError_of_parse_none _ hparse j
  | some t =>
    have hmem := List.mem_of_find?_eq_some hfind
    have hpt := List.find?_some hfind
    rcases mem_registerTools cfg t hmem with rfl | rfl | rfl | rfl | rfl
    · exact callTool_simple_step cfg s args w freshId now name getAddressTool hfind
        WalletOp.getAddress Json.str (fun s' => rfl) (fun msg h => hw _ msg h)
    · exact callTool_simple_step cfg s args w freshId now name getBalanceTool hfind
        WalletOp.getBalance Json.str (fun s' => rfl) (fun msg h => hw _ msg h)
    · exact callTool_simple_step cfg s args w freshId now name signTransactionTool hfind
        (WalletOp.signTransaction args)
        (fun st => Json.obj [("signedTransaction", Json.str st)])
        (fun s' => rfl) (fun msg h => hw _ msg h)
    · exact callTool_simple_step cfg s args w freshId now name getTokenBalanceTool hfind
        (WalletOp.getTokenBalance args.token args.decimals) Json.str
        (fun s' => rfl) (fun msg h => hw _ msg h)
    · exfalso
      have hname2 : name = "wallet_sendTransaction" := (of_decide_eq_true hpt).symm
      rw [hname2] at hname
      rcases hname with h | h | h | h <;> exact absurd h (by decide)

/-- Witness for C8 at concrete inputs (a failing capability with a plain
message). -/
theorem read_info_prepare_no_confirmation_witness :
    (callTool cfgAll [("x", ⟨sampleArgs, TxStatus.pending, 0⟩)] "wallet_getBalance"
        sampleArgs wFail "f" 9).2.1 = [("x", ⟨sampleArgs, TxStatus.pending, 0⟩)] ∧
    ∀ j, (callTool cfgAll [("x", ⟨sampleArgs, TxStatus.pending, 0⟩)] "wallet_getBalance"
        sampleArgs wFail "f" 9).1 ≠ Response.jsonError j :=
  read_info_prepare_no_confirmation cfgAll [("x", ⟨sampleArgs, TxStatus.pending, 0⟩)]
    sampleArgs wFail "f" 9 "wallet_getBalance" (Or.inr (Or.inl rfl))
    (fun op msg h => by
      have h2 : (Except.error "insufficient funds" : Except String String)
          = Except.error msg := h
      injection h2 with h3
      rw [← h3]
      rfl)

/-! ## Tool listing (C9) -/

/-- C9 counterexample: with every tier enabled but `requireConfirmation`
false, the advertised sequence is NOT "exactly the descriptors of enabled
tiers": the transaction-tier descriptor is missing. -/
theorem listEnabled_not_exactly_enabled_tiers :
    registeredNames cfgTxNoConf ≠ specEnabledNames cfgTxNoConf := by decide

/-- C9 amended: listing the tools twice returns identical sequences and
leaves the state untouched, and the advertised sequence is the enabled-tier
descriptors in registration order (read, prepare, info, transaction) — except
that the transaction-tier descriptor additionally requires
`requireConfirmation`. -/
theorem listTools_idempotent_and_ordered (tools : List ToolImpl) (s : PendingMap)
    (cfg : ResolvedConfig) :
    (listToolNames tools s).1 = (listToolNames tools (listToolNames tools s).2).1
    ∧ (listToolNames tools s).2 = s
    ∧ registeredNames cfg = specEnabledNamesGated cfg := by
  refine ⟨rfl, rfl, ?_⟩
  unfold registeredNames registerTools specEnabledNamesGated canonicalToolTiers
  cases h1 : cfg.allowedOperations.contains OpTier.read <;>
  cases h2 : cfg.allowedOperations.contains OpTier.prepare <;>
  cases h3 : cfg.allowedOperations.contains OpTier.info <;>
  cases h4 : cfg.allowedOperations.contains OpTier.transaction <;>
  cases h5 : cfg.requireConfirmation <;>
  simp_all [getAddressTool, getBalanceTool, signTransactionTool,
    getTokenBalanceTool, sendTransactionTool, List.filter]

/-! ## Error-message shaping (C10) -/

/-- C10: the kind of response a failing tool produces depends on whether the
thrown message parses as JSON: with the read tier enabled and the capability
failing with message `msg`, the getAddress call returns
`toolError msg` (TOOL_ERROR) when `msg` is not valid JSON, and
`jsonError <parsed msg>` — indistinguishable from a structured control
signal — when `msg` happens to be valid JSON text. -/
theorem capability_error_shaped_by_json_parse
    (cfg : ResolvedConfig) (s : PendingMap) (args : ToolArgs) (w : WalletBehavior)
    (freshId : String) (now : Nat) (msg : String)
    (hread : cfg.allowedOperations.contains OpTier.read = true)
    (hw : w.run WalletOp.getAddress = Except.error msg) :
    (Json.parse msg = none →
       callTool cfg s "wallet_getAddress" args w freshId now
         = (Response.toolError msg, s, [WalletOp.getAddress])) ∧
    (∀ j, Json.parse msg = some j →
       callTool cfg s "wallet_getAddress" args w freshId now
         = (Response.jsonError j, s, [WalletOp.getAddress])) := by
  have hresp : callTool cfg s "wallet_getAddress" args w freshId now
      = (dispatchRaise msg, s, [WalletOp.getAddress]) := by
    unfold callTool
    rw [find?_getAddress_some cfg hread]
    dsimp only [getAddressTool]
    rw [hw]
  constructor
  · intro h
    rw [hresp]
    unfold dispatchRaise
    rw [h]
  · intro j h
    rw [hresp]
    unfold dispatchRaise
    rw [h]

/-- Witness for C10: a capability failure whose message is the JSON text
`\x7b"code":"RPC_ERROR"\x7d` is returned as a structured error object, as if it
were a control signal. -/
theorem capability_error_shaped_by_json_parse_witness :
    callTool cfgAll [] "wallet_getAddress" sampleArgs wJsonErr "z" 0
      = (Response.jsonError (Json.obj [("code", Json.str "RPC_ERROR")]), [],
         [WalletOp.getAddress]) :=
  (capability_error_shaped_by_json_parse cfgAll [] sampleArgs wJsonErr "z" 0
      "\x7b\"code\":\"RPC_ERROR\"\x7d" rfl rfl).2
    (Json.obj [("code", Json.str "RPC_ERROR")]) rfl
